import Mathlib

/-!
Verification of the devops_tests pre-commit hooks against their
natural-language specification.

The repository's hooks are pure string/structure checks over an in-memory
notebook representation (an ordered list of cells, each with a type, a
source text and optional outputs / execution metadata).  This file embeds
the functions of

  * `src/hooks/colab_header.py` (namespace `ColabHeader`),
  * `src/hooks/check_badges.py` (namespace `CheckBadges`),
  * `src/hooks/check_notebook_open_atmos_structure.py` (namespace
    `StructureHook`),
  * `src/hooks/notebooks_output.py` (namespace `NotebooksOutput`),
  * `src/devops_tests/pre_commit_hooks/notebooks_output.py` (namespace
    `PreCommitHooks`)

as executable Lean definitions, and proves or refutes the spec's claims
about them.  File I/O (nbformat read/write) is made explicit: a function
that may rewrite the notebook on disk returns the resulting on-disk
notebook next to its result value; a Python `raise ValueError` becomes an
`Except.error`.
-/

/-- One entry of a code cell's `outputs` list.  The Python code accesses the
fields through `dict.get` / `dict.__getitem__`, so each field is optional. -/
structure Output where
  output_type : Option String
  name : Option String
  text : Option String
deriving DecidableEq

/-- One notebook cell: `cell_type` ("markdown" or "code"), `source` text,
optional `execution_count` and the outputs (empty for markdown cells). -/
structure Cell where
  cell_type : String
  source : String
  execution_count : Option Int
  outputs : List Output
deriving DecidableEq

/-- A notebook: an ordered sequence of cells. -/
structure Notebook where
  cells : List Cell
deriving DecidableEq

/-- Python's `\s` / `str.strip` whitespace on the ASCII range:
space, tab, newline, carriage return, vertical tab, form feed. -/
def pySpace (c : Char) : Bool :=
  c == ' ' || c == '\t' || c == '\n' || c == '\r' || c == '\x0b' || c == '\x0c'

/-- Python's `str.strip()`: drop leading and trailing whitespace. -/
def pyStrip (s : String) : String :=
  String.mk (((s.data.dropWhile pySpace).reverse.dropWhile pySpace).reverse)

/-- Python truthiness of an optional string: `None` and `""` are falsy. -/
def truthyStr : Option String → Bool
  | some s => s != ""
  | none => false

/-- Python's `str.startswith(p)`: code-point prefix test. -/
def pyStartswith (p s : String) : Bool := p.data.isPrefixOf s.data

/-- Python's `str.split(sep)` for a one-character separator: splits at every
occurrence, keeping empty pieces (`"".split` gives `[""]`). -/
def pySplitChar (sep : Char) : List Char → List (List Char)
  | [] => [[]]
  | c :: cs =>
    if c = sep then [] :: pySplitChar sep cs
    else
      match pySplitChar sep cs with
      | [] => [[c]]
      | g :: gs => (c :: g) :: gs

/-- `source.split("\n")` as the Python validators use it. -/
def pySplitNl (s : String) : List String := (pySplitChar '\n' s.data).map String.mk

namespace ColabHeader

/-! Embedding of `src/hooks/colab_header.py`. -/

/-- The literal part `pip_install_on_colab\(` of `_PIP_INSTALL_RE`. -/
def pipLit : List Char := "pip_install_on_colab(".data

/-- A character matched by the regex class `['\"]`. -/
def isQuote (c : Char) : Bool := c == '\'' || c == '"'

/-- A character matched by the regex class `[^'\"]`. -/
def notQuote (c : Char) : Bool := !(c == '\'' || c == '"')

/-- The part of `_PIP_INSTALL_RE` after the literal `pip_install_on_colab(`:
`\s*['\"]([^'\"]+)['\"]\s*,\s*['\"]([^'\"]+)['\"]\s*\)`.

Each `\s*` and `[^'\"]+` is followed by a character its class excludes, so
the regex engine's greedy matching with backtracking is equivalent to this
deterministic maximal munch. Returns the two captured groups. -/
def matchAfterParen (s : List Char) : Option (List Char × List Char) :=
  match s.dropWhile pySpace with
  | [] => none
  | q1 :: t1 =>
    if !isQuote q1 then none else
    let g1 := t1.takeWhile notQuote
    match t1.dropWhile notQuote with
    | [] => none
    | q2 :: t2 =>
      if !isQuote q2 then none else
      if g1.isEmpty then none else
      match t2.dropWhile pySpace with
      | [] => none
      | c3 :: t4 =>
        if c3 != ',' then none else
        match t4.dropWhile pySpace with
        | [] => none
        | q3 :: t6 =>
          if !isQuote q3 then none else
          let g2 := t6.takeWhile notQuote
          match t6.dropWhile notQuote with
          | [] => none
          | q4 :: t7 =>
            if !isQuote q4 then none else
            if g2.isEmpty then none else
            match t7.dropWhile pySpace with
            | [] => none
            | c8 :: _ => if c8 == ')' then some (g1, g2) else none

/-- One attempt of `_PIP_INSTALL_RE` anchored at the start of `s`. -/
def matchPipAt (s : List Char) : Option (List Char × List Char) :=
  if pipLit.isPrefixOf s then matchAfterParen (s.drop pipLit.length) else none

/-- `_PIP_INSTALL_RE.search`: the leftmost match, scanning start positions
left to right. -/
def searchPip : List Char → Option (List Char × List Char)
  | [] => none
  | c :: cs =>
    match matchPipAt (c :: cs) with
    | some g => some g
    | none => searchPip cs

/-- `extract_versions(cell_source, repo_name)`: locate the
`pip_install_on_colab` invocation, check the two package arguments start
with `f"{repo_name}-examples"` / `repo_name`, and return the version
suffixes.  The Python function returns the pair `(None, None)` on failure;
here that case is `none`. -/
def extract_versions (cell_source repo_name : String) : Option (String × String) :=
  match searchPip cell_source.data with
  | none => none
  | some (ex, mn) =>
    let examplesPre := repo_name.data ++ "-examples".data
    if examplesPre.isPrefixOf ex && repo_name.data.isPrefixOf mn then
      some (String.mk (ex.drop examplesPre.length), String.mk (mn.drop repo_name.data.length))
    else none

/-- `resolve_version(existing, hook_version)`: the version in the notebook
wins, then the hook version, then the empty string ("no version");
`None` and `""` are both falsy in the Python tests. -/
def resolve_version (existing hook_version : Option String) : String :=
  if truthyStr existing then existing.getD ""
  else if truthyStr hook_version then hook_version.getD ""
  else ""

/-- `build_header(repo_name, version)`: the canonical Colab bootstrap cell
source (an f-string in the Python source, written here as concatenation). -/
def build_header (repo_name version : String) : String :=
  "import os, sys\nos.environ['NUMBA_THREADING_LAYER'] = 'workqueue'  # PySDM & PyMPDATA don't work with TBB; OpenMP has extra dependencies on macOS\nif 'google.colab' in sys.modules:\n    !pip --quiet install open-atmos-jupyter-utils\n    from open_atmos_jupyter_utils import pip_install_on_colab\n    pip_install_on_colab('"
    ++ repo_name ++ "-examples" ++ version ++ "', '" ++ repo_name ++ version ++ "')"

/-- `HEADER_KEY_PATTERNS`. -/
def HEADER_KEY_PATTERNS : List String :=
  ["install open-atmos-jupyter-utils", "google.colab", "pip_install_on_colab"]

/-- Substring containment (Python's `pat in cell_source`). -/
def containsSub (pat : List Char) : List Char → Bool
  | [] => pat.isEmpty
  | c :: cs => pat.isPrefixOf (c :: cs) || containsSub pat cs

/-- `looks_like_header(cell_source)`. -/
def looks_like_header (cell_source : String) : Bool :=
  HEADER_KEY_PATTERNS.all fun pat => containsSub pat.data cell_source.data

/-- The scan of `check_colab_header`'s loop: a cell is a header candidate if
it is a code cell whose source contains all key patterns. -/
def isHeaderCell (c : Cell) : Bool :=
  c.cell_type == "code" && looks_like_header c.source

/-- The `for idx, cell in enumerate(nb.cells)` loop: the first header
candidate with its index. -/
def findHeader : List Cell → Option (Nat × Cell)
  | [] => none
  | c :: cs =>
    if isHeaderCell c then some (0, c)
    else (findHeader cs).map fun p => (p.1 + 1, p.2)

/-- `nbformat.v4.new_code_cell(source)`. -/
def new_code_cell (source : String) : Cell := ⟨"code", source, none, []⟩

/-- The kinds of `ValueError` that `check_colab_header` raises. -/
inductive HeaderError where
  | tooFewCells
  | malformedHeader
  | versionMismatch (examples_version main_version : String)
  | incorrectHeader
deriving DecidableEq

/-- `check_colab_header(notebook_path, repo_name, fix, hook_version)`.

The function reads the notebook, and writes it back only in the branches
that call `nbformat.write`; the pair returned here is (the Python return
value or the raised error, the notebook on disk after the call).  The
Python accumulates a `modified` flag from a content fix and a relocation
and writes if it is set; that control flow is laid out as explicit cases:

  * fewer than 3 cells: raise, no write;
  * no header candidate: synthesize a header from the resolved version,
    insert it at index 2, write, return `True` (not gated by `fix`);
  * header present: extract the two versions (raise if malformed, raise if
    they differ), compute the canonical source; if the source differs and
    `fix` is unset raise; otherwise rewrite non-canonical content
    (`nb.cells[i].source = header_source`), relocate a header at index ≠ 2
    (`nb.cells.insert(2, nb.cells.pop(header_index))`), and write exactly
    when either happened, returning the `modified` flag. -/
def check_colab_header (nb : Notebook) (repo_name : String) (fix : Bool)
    (hook_version : Option String) : Except HeaderError Bool × Notebook :=
  if nb.cells.length < 3 then (Except.error HeaderError.tooFewCells, nb) else
  match findHeader nb.cells with
  | none =>
    let final_version := resolve_version none hook_version
    let header_source := build_header repo_name final_version
    (Except.ok true, ⟨nb.cells.insertIdx 2 (new_code_cell header_source)⟩)
  | some (header_index, header_cell) =>
    match extract_versions header_cell.source repo_name with
    | none => (Except.error HeaderError.malformedHeader, nb)
    | some (examples_version, main_version) =>
      if examples_version = main_version then
        let final_version := resolve_version (some main_version) hook_version
        let header_source := build_header repo_name final_version
        if header_cell.source = header_source then
          if header_index = 2 then (Except.ok false, nb)
          else (Except.ok true, ⟨(nb.cells.eraseIdx header_index).insertIdx 2 header_cell⟩)
        else if fix then
          let fixed : Cell := { header_cell with source := header_source }
          if header_index = 2 then (Except.ok true, ⟨nb.cells.set header_index fixed⟩)
          else
            (Except.ok true,
              ⟨((nb.cells.set header_index fixed).eraseIdx header_index).insertIdx 2 fixed⟩)
        else (Except.error HeaderError.incorrectHeader, nb)
      else (Except.error (HeaderError.versionMismatch examples_version main_version), nb)

end ColabHeader

namespace CheckBadges

/-! Embedding of `src/hooks/check_badges.py` (the order-tolerant badge
validator and its driver `main`).  Repository-root discovery
(`find_repo_root`, GitPython, `Path.cwd()`) and the conversion of a
filename into a repo-relative URL path are filesystem/git work outside the
embedding: the badge builders take the already-resolved `absolute_path`
string, exactly as `preview_badge_markdown` and friends do in the source. -/

/-- `preview_badge_markdown(absolute_path, repo_name, repo_owner)`. -/
def preview_badge_markdown (absolute_path repo_name repo_owner : String) : String :=
  "[![preview notebook](https://img.shields.io/static/v1?label=render%20on&logo=github&color=87ce3e&message=GitHub)](https://github.com/"
    ++ repo_owner ++ "/" ++ repo_name ++ "/blob/main/" ++ absolute_path ++ ")"

/-- `mybinder_badge_markdown(absolute_path, repo_name, repo_owner)`. -/
def mybinder_badge_markdown (absolute_path repo_name repo_owner : String) : String :=
  "[![launch on mybinder.org](https://mybinder.org/badge_logo.svg)](https://mybinder.org/v2/gh/"
    ++ repo_owner ++ "/" ++ repo_name ++ ".git/main?urlpath=lab/tree/" ++ absolute_path ++ ")"

/-- `colab_badge_markdown(absolute_path, repo_name, repo_owner)`. -/
def colab_badge_markdown (absolute_path repo_name repo_owner : String) : String :=
  "[![launch on Colab](https://colab.research.google.com/assets/colab-badge.svg)](https://colab.research.google.com/github/"
    ++ repo_owner ++ "/" ++ repo_name ++ "/blob/main/" ++ absolute_path ++ ")"

/-- `expected_badges_for`: the three canonical badge lines for a notebook. -/
def expected_badges_for (absolute_path repo_name repo_owner : String) : List String :=
  [preview_badge_markdown absolute_path repo_name repo_owner,
   mybinder_badge_markdown absolute_path repo_name repo_owner,
   colab_badge_markdown absolute_path repo_name repo_owner]

/-- `first_cell_lines(nb)`: the stripped non-blank lines of the first cell
if it is markdown, else `[]`.  (The Python uses `str.splitlines()`; on the
line endings notebooks use, splitting on `'\n'` and stripping each piece
gives the same list, since a trailing `'\r'` is stripped and blank pieces
are filtered out.) -/
def first_cell_lines (nb : Notebook) : List String :=
  match nb.cells with
  | [] => []
  | first :: _ =>
    if first.cell_type != "markdown" then []
    else ((pySplitNl first.source).map pyStrip).filter fun ln => ln != ""

/-- `badges_match(actual_lines, expected_lines)`: tolerant check — every
expected badge must occur among the stripped actual lines, in any order. -/
def badges_match (actual_lines expected_lines : List String) : Bool × String :=
  let actual_set := actual_lines.map pyStrip
  let missing := expected_lines.filter fun exp => !(actual_set.contains (pyStrip exp))
  if missing.isEmpty then (true, "") else (false, "Missing badges")

/-- `test_notebook_has_at_least_three_cells`. -/
def test_notebook_has_at_least_three_cells (nb : Notebook) : Except String Unit :=
  if nb.cells.length < 3 then Except.error "Notebook should have at least 3 cells"
  else Except.ok ()

/-- `test_first_cell_contains_three_badges` (tolerant variant). -/
def test_first_cell_contains_three_badges (absolute_path repo_name repo_owner : String)
    (nb : Notebook) : Except String Unit :=
  let lines := first_cell_lines nb
  let expected := expected_badges_for absolute_path repo_name repo_owner
  match badges_match lines expected with
  | (true, _) => Except.ok ()
  | (false, msg) => Except.error msg

/-- `test_second_cell_is_a_markdown_cell`. -/
def test_second_cell_is_a_markdown_cell (nb : Notebook) : Except String Unit :=
  if nb.cells.length < 2 then Except.error "Notebook has no second cell"
  else match nb.cells.get? 1 with
    | some c =>
      if c.cell_type = "markdown" then Except.ok ()
      else Except.error "Second cell is not a markdown cell"
    | none => Except.error "Notebook has no second cell"

/-- One input file of the driver: its path, its parsed notebook, and whether
`fix_header_inplace` would raise on it.  Modelled from the spec: the
repair's own failure ("repair itself failed") is an I/O-level event outside
the pure embedding, so it is a per-file input bit here. -/
structure BatchFile where
  path : String
  nb : Notebook
  fix_raises : Bool
deriving DecidableEq

/-- The three validator calls of `main`'s per-file `try` block, in order;
the first failure wins. -/
def file_checks (repo_name repo_owner : String) (f : BatchFile) : Except String Unit := do
  test_notebook_has_at_least_three_cells f.nb
  test_first_cell_contains_three_badges f.path repo_name repo_owner f.nb
  test_second_cell_is_a_markdown_cell f.nb

/-- `main`'s exit status.  Modelled from the spec: the handler catches the
validator failures (`NotebookTestError` lives in the `.utils` module, which
is not among the repository's files; per the spec "the driver catches at
the per-check granularity").  On a failure the running `retval` is set to
1; with `--fix-header` it is then overwritten with 0 when the repair
succeeded and 2 when the repair raised — for each failing file anew. -/
def main_exit (fix_header : Bool) (repo_name repo_owner : String)
    (files : List BatchFile) : Nat :=
  files.foldl
    (fun retval f =>
      match file_checks repo_name repo_owner f with
      | Except.ok _ => retval
      | Except.error _ =>
        if fix_header then (if f.fix_raises then 2 else 0) else 1)
    0

end CheckBadges

namespace StructureHook

/-! Embedding of `src/hooks/check_notebook_open_atmos_structure.py`
(the strict, order-sensitive badge validator and the hook driver that also
runs `check_colab_header`). -/

/-- `_preview_badge_markdown(absolute_path, repo_name)` (owner fixed to
`open-atmos`). -/
def _preview_badge_markdown (absolute_path repo_name : String) : String :=
  "[![preview notebook](https://img.shields.io/static/v1?label=render%20on&logo=github&color=87ce3e&message=GitHub)](https://github.com/open-atmos/"
    ++ repo_name ++ "/blob/main/" ++ absolute_path ++ ")"

/-- `_mybinder_badge_markdown(absolute_path, repo_name)`. -/
def _mybinder_badge_markdown (absolute_path repo_name : String) : String :=
  "[![launch on mybinder.org](https://mybinder.org/badge_logo.svg)](https://mybinder.org/v2/gh/open-atmos/"
    ++ repo_name ++ ".git/main?urlpath=lab/tree/" ++ absolute_path ++ ")"

/-- `_colab_badge_markdown(absolute_path, repo_name)`. -/
def _colab_badge_markdown (absolute_path repo_name : String) : String :=
  "[![launch on Colab](https://colab.research.google.com/assets/colab-badge.svg)](https://colab.research.google.com/github/open-atmos/"
    ++ repo_name ++ "/blob/main/" ++ absolute_path ++ ")"

/-- `test_notebook_has_at_least_three_cells`. -/
def test_notebook_has_at_least_three_cells (nb : Notebook) : Except String Unit :=
  if nb.cells.length < 3 then Except.error "Notebook should have at least 3 cells"
  else Except.ok ()

/-- `test_first_cell_contains_three_badges` (strict variant): first cell
must be markdown, its source split on `'\n'` must be exactly 3 lines, and
the lines must equal the three badges in order.  `nb.cells[0]` on an empty
notebook raises `IndexError`. -/
def test_first_cell_contains_three_badges (notebook_filename repo_name : String)
    (nb : Notebook) : Except String Unit :=
  match nb.cells with
  | [] => Except.error "IndexError"
  | first :: _ =>
    if first.cell_type != "markdown" then Except.error "First cell is not a markdown cell" else
    match pySplitNl first.source with
    | [l0, l1, l2] =>
      if l0 != _preview_badge_markdown notebook_filename repo_name then
        Except.error "First badge does not match Github preview badge"
      else if l1 != _mybinder_badge_markdown notebook_filename repo_name then
        Except.error "Second badge does not match MyBinder badge"
      else if l2 != _colab_badge_markdown notebook_filename repo_name then
        Except.error "Third badge does not match Colab badge"
      else Except.ok ()
    | _ => Except.error "First cell does not contain exactly 3 lines (badges)"

/-- `test_second_cell_is_a_markdown_cell`; `nb.cells[1]` on a short
notebook raises `IndexError`. -/
def test_second_cell_is_a_markdown_cell (nb : Notebook) : Except String Unit :=
  match nb.cells.get? 1 with
  | none => Except.error "IndexError"
  | some c =>
    if c.cell_type = "markdown" then Except.ok ()
    else Except.error "Second cell is not a markdown cell"

/-- The second `try` block of `main`: the three structural tests in order,
first failure wins.  They re-read the file, so they see the notebook as
`check_colab_header` left it on disk. -/
def file_tests (notebook_filename repo_name : String) (nb : Notebook) : Except String Unit := do
  test_notebook_has_at_least_three_cells nb
  test_first_cell_contains_three_badges notebook_filename repo_name nb
  test_second_cell_is_a_markdown_cell nb

/-- One iteration of `main`'s loop: run `check_colab_header` on the file
(appending it to the reformatted or unchanged bucket, or flagging failure
on a `ValueError`), then the three structural tests on the resulting
on-disk notebook (flagging failure on a `ValueError`).  The accumulator is
(failed_files, number of reformatted files, number of unchanged files). -/
def main_step (repo_name : String) (fix : Bool) (hook_version : Option String)
    (acc : Bool × Nat × Nat) (f : String × Notebook) : Bool × Nat × Nat :=
  let res := ColabHeader.check_colab_header f.2 repo_name fix hook_version
  let acc1 : Bool × Nat × Nat :=
    match res.1 with
    | Except.ok true => (acc.1, acc.2.1 + 1, acc.2.2)
    | Except.ok false => (acc.1, acc.2.1, acc.2.2 + 1)
    | Except.error _ => (true, acc.2.1, acc.2.2)
  match file_tests f.1 repo_name res.2 with
  | Except.ok _ => acc1
  | Except.error _ => (true, acc1.2.1, acc1.2.2)

/-- `main`'s exit status: per file, run `check_colab_header` (counting
reformatted/unchanged files and flagging failures) and then the structural
tests on the resulting on-disk notebook; return 1 if any file was
reformatted or any check failed, else 0 (`return 1 if (reformatted_files
or failed_files) else 0` — there is no exit code 2 in this driver). -/
def main_exit (repo_name : String) (fix : Bool) (hook_version : Option String)
    (files : List (String × Notebook)) : Nat :=
  let final := files.foldl (main_step repo_name fix hook_version) (false, 0, 0)
  if 0 < final.2.1 || final.1 then 1 else 0

end StructureHook

namespace NotebooksOutput

/-! Embedding of `src/hooks/notebooks_output.py`'s
`test_no_errors_or_warnings_in_output`. -/

/-- The inner `for output in cell.outputs` loop of
`test_no_errors_or_warnings_in_output`: raise on an `error` output, and on
a `stream`/`stderr` output whose text is truthy and does not start with
the allow-listed prefix `"[Parallel(n_jobs="`. -/
def check_outputs (cell_idx : Nat) : List Output → Except String Unit
  | [] => Except.ok ()
  | o :: rest =>
    if o.output_type = some "error" then
      Except.error s!"Cell [{cell_idx}] contain error or warning"
    else if o.output_type = some "stream" then
      if o.name = some "stderr" then
        if truthyStr o.text && !(pyStartswith "[Parallel(n_jobs=" (o.text.getD "")) then
          Except.error s!"Cell [{cell_idx}]: unexpected stderr"
        else check_outputs cell_idx rest
      else check_outputs cell_idx rest
    else check_outputs cell_idx rest

/-- The outer `for cell_idx, cell in enumerate(notebook.cells)` loop. -/
def check_cells (cell_idx : Nat) : List Cell → Except String Unit
  | [] => Except.ok ()
  | c :: rest =>
    if c.cell_type = "code" then
      match check_outputs cell_idx c.outputs with
      | Except.ok _ => check_cells (cell_idx + 1) rest
      | Except.error e => Except.error e
    else check_cells (cell_idx + 1) rest

/-- `test_no_errors_or_warnings_in_output(notebook)` (hooks variant). -/
def test_no_errors_or_warnings_in_output (nb : Notebook) : Except String Unit :=
  check_cells 0 nb.cells

end NotebooksOutput

namespace PreCommitHooks

/-! Embedding of `src/devops_tests/pre_commit_hooks/notebooks_output.py`'s
`test_no_errors_or_warnings_in_output`.  This variant never looks at
`output_type`: it raises on any output that has a `name` field equal to
`stderr` whose `text` does not start with the allow-listed prefix
(`output["text"]` on an output without a `text` field raises `KeyError`). -/

/-- The inner output loop of the pre-commit-hooks variant. -/
def check_outputs : List Output → Except String Unit
  | [] => Except.ok ()
  | o :: rest =>
    if o.name = some "stderr" then
      match o.text with
      | none => Except.error "KeyError: text"
      | some t =>
        if pyStartswith "[Parallel(n_jobs=" t then check_outputs rest
        else Except.error t
    else check_outputs rest

/-- The outer cell loop of the pre-commit-hooks variant. -/
def check_cells : List Cell → Except String Unit
  | [] => Except.ok ()
  | c :: rest =>
    if c.cell_type = "code" then
      match check_outputs c.outputs with
      | Except.ok _ => check_cells rest
      | Except.error e => Except.error e
    else check_cells rest

/-- `test_no_errors_or_warnings_in_output(notebook)` (devops_tests
pre-commit-hooks variant). -/
def test_no_errors_or_warnings_in_output (nb : Notebook) : Except String Unit :=
  check_cells nb.cells

end PreCommitHooks

/-! ### Auxiliary definitions used by the proofs and witnesses -/

namespace ColabHeader

/-- The fixed text of the canonical header before the `pip_install_on_colab`
call: `build_header`'s leading literal is `headerPre ++ "pip_install_on_colab('"`. -/
def headerPre : String := "import os, sys\nos.environ['NUMBA_THREADING_LAYER'] = 'workqueue'  # PySDM & PyMPDATA don't work with TBB; OpenMP has extra dependencies on macOS\nif 'google.colab' in sys.modules:\n    !pip --quiet install open-atmos-jupyter-utils\n    from open_atmos_jupyter_utils import pip_install_on_colab\n    "

end ColabHeader

namespace StructureHook

/-- A file on which the structure-hook driver records a failure: either
`check_colab_header` raised, or the structural tests on the resulting
notebook raised. -/
def file_fails (repo_name : String) (fix : Bool) (hook_version : Option String)
    (f : String × Notebook) : Bool :=
  (match (ColabHeader.check_colab_header f.2 repo_name fix hook_version).1 with
   | Except.error _ => true
   | Except.ok _ => false) ||
  (match file_tests f.1 repo_name
      (ColabHeader.check_colab_header f.2 repo_name fix hook_version).2 with
   | Except.error _ => true
   | Except.ok _ => false)

/-- A file the structure-hook driver counts as reformatted. -/
def file_reformatted (repo_name : String) (fix : Bool) (hook_version : Option String)
    (f : String × Notebook) : Bool :=
  match (ColabHeader.check_colab_header f.2 repo_name fix hook_version).1 with
  | Except.ok true => true
  | _ => false

end StructureHook

instance {e a : Type _} [DecidableEq e] [DecidableEq a] : DecidableEq (Except e a) := fun x y =>
  match x, y with
  | Except.ok u, Except.ok v =>
    if h : u = v then isTrue (congrArg Except.ok h)
    else isFalse fun he => h (Except.ok.inj he)
  | Except.error u, Except.error v =>
    if h : u = v then isTrue (congrArg Except.error h)
    else isFalse fun he => h (Except.error.inj he)
  | Except.ok _, Except.error _ => isFalse fun he => Except.noConfusion he
  | Except.error _, Except.ok _ => isFalse fun he => Except.noConfusion he

/-! Example cells and notebooks used by concrete witnesses and counterexamples. -/

/-- A markdown cell with the given source. -/
def mdCell (s : String) : Cell := ⟨"markdown", s, none, []⟩

/-- An executed code cell with the given source and no outputs. -/
def codeCell (s : String) : Cell := ⟨"code", s, some 1, []⟩

/-- A three-cell notebook with no header candidate anywhere. -/
def nbNoHeader : Notebook :=
  ⟨[mdCell "Intro", mdCell "Description", codeCell "x = 1"]⟩

/-- A code cell that is recognized as a header but embeds the mismatched
versions `"1.0"` and `"2.0"`. -/
def mismatchHeaderCell : Cell :=
  codeCell "# install open-atmos-jupyter-utils\n# google.colab\npip_install_on_colab('x-examples1.0', 'x2.0')"

/-- Mismatched header at index 3 (of 4 cells). -/
def nbMismatch : Notebook :=
  ⟨[mdCell "Intro", mdCell "Description", codeCell "x = 1", mismatchHeaderCell]⟩

/-- A canonical (version-less) header cell for repository `x`. -/
def canonCell : Cell := ColabHeader.new_code_cell (ColabHeader.build_header "x" "")

/-- Canonical header at the canonical index 2. -/
def nbCanonAt2 : Notebook := ⟨[mdCell "Intro", mdCell "Description", canonCell]⟩

/-- Canonical header at index 3 instead of 2. -/
def nbCanonAt3 : Notebook :=
  ⟨[mdCell "Intro", mdCell "Description", codeCell "x = 1", canonCell]⟩

/-- Two distinct cells, both recognized as headers with identical canonical
source (they differ in `execution_count` only), the first at index 0. -/
def nbTwoHeaders : Notebook :=
  ⟨[⟨"code", ColabHeader.build_header "x" "", some 1, []⟩,
    mdCell "Description",
    ⟨"code", ColabHeader.build_header "x" "", some 2, []⟩]⟩

/-- A code cell carrying one `error` output (as nbformat records it:
no `name`, no `text`). -/
def nbErrorOutput : Notebook :=
  ⟨[⟨"code", "1/0", some 1, [⟨some "error", none, none⟩]⟩]⟩

/-- A first cell holding the three expected (tolerant-variant) badges for
`nb.ipynb` in repository `r` of owner `o`, plus one extra non-blank line. -/
def nbFourLines : Notebook :=
  ⟨[mdCell (CheckBadges.preview_badge_markdown "nb.ipynb" "r" "o" ++ "\n" ++
      CheckBadges.mybinder_badge_markdown "nb.ipynb" "r" "o" ++ "\n" ++
      CheckBadges.colab_badge_markdown "nb.ipynb" "r" "o" ++ "\nextra line"),
    mdCell "Description", codeCell "x = 1"]⟩

/-- A first cell holding exactly the three strict-variant badge lines. -/
def nbStrictBadges : Notebook :=
  ⟨[mdCell (StructureHook._preview_badge_markdown "nb.ipynb" "r" ++ "\n" ++
      StructureHook._mybinder_badge_markdown "nb.ipynb" "r" ++ "\n" ++
      StructureHook._colab_badge_markdown "nb.ipynb" "r"),
    mdCell "Description", codeCell "x = 1"]⟩

/-! ### Generic list helper lemmas -/

section ListHelpers

variable {α : Type _}

theorem isPrefixOf_append_left [BEq α] (l : List α) :
    ∀ (pre r : List α), l.length ≤ pre.length →
      l.isPrefixOf (pre ++ r) = l.isPrefixOf pre := by
  induction l with
  | nil => intro pre r _; simp [List.isPrefixOf]
  | cons a l ih =>
    intro pre r hlen
    cases pre with
    | nil => simp at hlen
    | cons b pre' =>
      show (a == b && l.isPrefixOf (pre' ++ r)) = (a == b && l.isPrefixOf pre')
      rw [ih pre' r (by simpa using hlen)]

theorem isPrefixOf_append_self [BEq α] [LawfulBEq α] (l r : List α) :
    l.isPrefixOf (l ++ r) = true :=
  List.isPrefixOf_iff_prefix.mpr (List.prefix_append l r)

theorem isPrefixOf_of_append [BEq α] [LawfulBEq α] {l x : List α} (y : List α)
    (h : l.isPrefixOf x = true) : l.isPrefixOf (x ++ y) = true :=
  List.isPrefixOf_iff_prefix.mpr
    ((List.isPrefixOf_iff_prefix.mp h).trans (List.prefix_append x y))

theorem takeWhile_append_cons (p : α → Bool) (g : List α) (q : α) (r : List α)
    (hg : ∀ c ∈ g, p c = true) (hq : p q = false) :
    (g ++ q :: r).takeWhile p = g ∧ (g ++ q :: r).dropWhile p = q :: r := by
  induction g with
  | nil => simp [List.takeWhile_cons, List.dropWhile_cons, hq]
  | cons c g ih =>
    have hc : p c = true := hg c (by simp)
    have ih' := ih fun x hx => hg x (by simp [hx])
    simp [List.takeWhile_cons, List.dropWhile_cons, hc, ih'.1, ih'.2]

theorem countP_le_one_unique (p : α → Bool) :
    ∀ (l : List α) (i j : Nat) (ci cj : α), l.countP p ≤ 1 →
      l.get? i = some ci → l.get? j = some cj →
      p ci = true → p cj = true → i = j := by
  intro l
  induction l with
  | nil => intro i j ci cj _ hi; simp at hi
  | cons a t ih =>
    intro i j ci cj hc hi hj hpi hpj
    have hcc : t.countP p + (if p a = true then 1 else 0) ≤ 1 := by
      rw [← List.countP_cons]; exact hc
    cases i with
    | zero =>
      cases j with
      | zero => rfl
      | succ j' =>
        exfalso
        have ha : a = ci := by simpa using hi
        have hpa : p a = true := ha ▸ hpi
        have h1 : (a :: t).countP p = t.countP p + 1 := by
          rw [List.countP_cons, hpa]; simp
        have hzero : t.countP p = 0 := by omega
        have hmem : cj ∈ t := List.get?_mem (by simpa using hj)
        exact absurd hpj (by simpa using List.countP_eq_zero.mp hzero cj hmem)
    | succ i' =>
      cases j with
      | zero =>
        exfalso
        have ha : a = cj := by simpa using hj
        have hpa : p a = true := ha ▸ hpj
        have h1 : (a :: t).countP p = t.countP p + 1 := by
          rw [List.countP_cons, hpa]; simp
        have hzero : t.countP p = 0 := by omega
        have hmem : ci ∈ t := List.get?_mem (by simpa using hi)
        exact absurd hpi (by simpa using List.countP_eq_zero.mp hzero ci hmem)
      | succ j' =>
        have : t.countP p ≤ 1 := by omega
        have := ih i' j' ci cj this (by simpa using hi) (by simpa using hj) hpi hpj
        omega

theorem eraseIdx_all_not (p : α → Bool) :
    ∀ (l : List α) (i : Nat),
      (∀ j cj, l.get? j = some cj → j ≠ i → p cj = false) →
      ∀ x ∈ l.eraseIdx i, p x = false := by
  intro l
  induction l with
  | nil => intro i _ x hx; simp at hx
  | cons a t ih =>
    intro i h x hx
    cases i with
    | zero =>
      rw [List.eraseIdx_cons_zero] at hx
      obtain ⟨n, hn⟩ := List.get?_of_mem hx
      exact h (n + 1) x (by simpa using hn) (by omega)
    | succ i' =>
      rw [List.eraseIdx_cons_succ] at hx
      rcases List.mem_cons.mp hx with rfl | hx'
      · exact h 0 x rfl (by omega)
      · exact ih i' (fun j cj hj hne => h (j + 1) cj (by simpa using hj) (by omega)) x hx'

theorem eraseIdx_set_eq (x : α) :
    ∀ (l : List α) (i : Nat), (l.set i x).eraseIdx i = l.eraseIdx i := by
  intro l
  induction l with
  | nil => intro i; simp
  | cons a t ih =>
    intro i
    cases i with
    | zero => simp
    | succ i' => simp [List.set_cons_succ, List.eraseIdx_cons_succ, ih]

end ListHelpers

namespace ColabHeader

/-! ### Facts about the regex matcher and the canonical header -/


set_option maxRecDepth 4000 in
theorem build_header_lit_split :
    ("import os, sys\nos.environ['NUMBA_THREADING_LAYER'] = 'workqueue'  # PySDM & PyMPDATA don't work with TBB; OpenMP has extra dependencies on macOS\nif 'google.colab' in sys.modules:\n    !pip --quiet install open-atmos-jupyter-utils\n    from open_atmos_jupyter_utils import pip_install_on_colab\n    pip_install_on_colab('" : String).data
      = headerPre.data ++ (pipLit ++ ['\'']) := by decide

set_option maxRecDepth 4000 in
/-- Nowhere strictly inside the fixed pre-call text does the literal
`pip_install_on_colab(` match (its one other occurrence, in the import
line, is not followed by an opening parenthesis). -/
theorem headerPre_no_pip : ∀ i < headerPre.data.length,
    pipLit.isPrefixOf (headerPre.data.drop i ++ pipLit) = false := by decide

theorem dropWhile_cons_false {α : Type _} {p : α → Bool} {c : α} {l : List α}
    (h : p c = false) : List.dropWhile p (c :: l) = c :: l := by
  rw [List.dropWhile_cons, h]; simp

set_option maxRecDepth 8000 in
/-- The decomposition of the canonical header text as character lists. -/
theorem build_header_data (r v : String) :
    (build_header r v).data =
      headerPre.data ++ (pipLit ++ ('\'' ::
        ((r.data ++ ("-examples".data ++ v.data)) ++
          ('\'' :: ',' :: ' ' :: '\'' ::
            ((r.data ++ v.data) ++ ['\'', ')']))))) := by
  have h1 : ("', '" : String).data = ['\'', ',', ' ', '\''] := by decide
  have h2 : ("')" : String).data = ['\'', ')'] := by decide
  unfold build_header
  rw [String.data_append, String.data_append, String.data_append, String.data_append,
      String.data_append, String.data_append, String.data_append,
      build_header_lit_split, h1, h2]
  simp [List.append_assoc]

/-- The deterministic matcher succeeds on the canonical argument text. -/
theorem matchAfterParen_canonical (g1 g2 : List Char)
    (hg1 : ∀ c ∈ g1, notQuote c = true) (hg2 : ∀ c ∈ g2, notQuote c = true)
    (h1 : g1 ≠ []) (h2 : g2 ≠ []) :
    matchAfterParen ('\'' :: (g1 ++ ('\'' :: ',' :: ' ' :: '\'' :: (g2 ++ ['\'', ')'])))) =
      some (g1, g2) := by
  have hq : notQuote '\'' = false := rfl
  have t1 := takeWhile_append_cons notQuote g1 '\''
    (',' :: ' ' :: '\'' :: (g2 ++ ['\'', ')'])) hg1 hq
  have t2 := takeWhile_append_cons notQuote g2 '\'' [')'] hg2 hq
  unfold matchAfterParen
  rw [dropWhile_cons_false (show pySpace '\'' = false from rfl)]
  simp +decide [t1.1, t1.2, t2.1, t2.2, List.dropWhile_cons, List.isEmpty_iff, h1, h2]

end ColabHeader

namespace ColabHeader

theorem searchPip_append (a b : List Char)
    (h : ∀ i, i < a.length → matchPipAt (a.drop i ++ b) = none) :
    searchPip (a ++ b) = searchPip b := by
  induction a with
  | nil => simp
  | cons c cs ih =>
    have h0 : matchPipAt (c :: (cs ++ b)) = none := by simpa using h 0 (by simp)
    rw [List.cons_append]
    simp only [searchPip]
    rw [h0]
    exact ih fun i hi => by simpa using h (i + 1) (by simpa using hi)

theorem searchPip_of_matchPipAt (l : List Char) (g : List Char × List Char)
    (h : matchPipAt l = some g) : searchPip l = some g := by
  cases l with
  | nil =>
    have hnone : matchPipAt [] = none := by decide
    rw [hnone] at h; exact absurd h (by simp)
  | cons c cs => simp only [searchPip]; rw [h]

theorem string_mk_data (s : String) : String.mk s.data = s := by
  cases s; rfl

theorem extract_versions_build (r v : String)
    (hr : ∀ c ∈ r.data, notQuote c = true) (hv : ∀ c ∈ v.data, notQuote c = true)
    (hne : r.data ++ v.data ≠ []) :
    extract_versions (build_header r v) r = some (v, v) := by
  have hex : ∀ c ∈ ("-examples" : String).data, notQuote c = true := by decide
  have hg1 : ∀ c ∈ r.data ++ ("-examples".data ++ v.data), notQuote c = true := by
    intro c hc
    rcases List.mem_append.mp hc with hc | hc
    · exact hr c hc
    rcases List.mem_append.mp hc with hc | hc
    · exact hex c hc
    · exact hv c hc
  have hg2 : ∀ c ∈ r.data ++ v.data, notQuote c = true := by
    intro c hc
    rcases List.mem_append.mp hc with hc | hc
    · exact hr c hc
    · exact hv c hc
  have hg1ne : r.data ++ ("-examples".data ++ v.data) ≠ [] := by
    intro hcontra
    have := congrArg List.length hcontra
    simp [List.length_append] at this
  have hsearch : searchPip (build_header r v).data =
      some (r.data ++ ("-examples".data ++ v.data), r.data ++ v.data) := by
    rw [build_header_data, searchPip_append]
    · apply searchPip_of_matchPipAt
      unfold matchPipAt
      rw [isPrefixOf_append_self, if_pos rfl, List.drop_left]
      exact matchAfterParen_canonical _ _ hg1 hg2 hg1ne hne
    · intro i hi
      unfold matchPipAt
      rw [← List.append_assoc,
        isPrefixOf_append_left pipLit _ _ (by simp [List.length_append]),
        headerPre_no_pip i hi]
      simp
  unfold extract_versions
  rw [hsearch]
  have e1 : (r.data ++ "-examples".data).isPrefixOf
      (r.data ++ ("-examples".data ++ v.data)) = true := by
    rw [← List.append_assoc]; exact isPrefixOf_append_self _ _
  have e2 : r.data.isPrefixOf (r.data ++ v.data) = true := isPrefixOf_append_self _ _
  simp only [e1, e2, Bool.and_self, if_pos]
  rw [← List.append_assoc, List.drop_left, List.drop_left, string_mk_data]

end ColabHeader

namespace ColabHeader

theorem ifif_some {γ : Type _} {c1 c2 : Prop} [Decidable c1] [Decidable c2] {v g : γ}
    (h : (if c1 then none else if c2 then none else some v) = some g) : v = g := by
  by_cases h1 : c1 <;> by_cases h2 : c2 <;> simp [h1, h2] at h <;> exact h

theorem matchAfterParen_notQuote (s : List Char) (g : List Char × List Char)
    (h : matchAfterParen s = some g) :
    (∀ c ∈ g.1, notQuote c = true) ∧ ∀ c ∈ g.2, notQuote c = true := by
  unfold matchAfterParen at h
  repeat' (split at h <;> try exact Option.noConfusion h)
  all_goals try (simp only [ite_self] at h; exact Option.noConfusion h)
  all_goals
    have hv := ifif_some h
    rw [← hv]
    exact ⟨fun c hc => List.mem_takeWhile_imp (by simpa using hc),
      fun c hc => List.mem_takeWhile_imp (by simpa using hc)⟩

theorem matchPipAt_notQuote (s : List Char) (g : List Char × List Char)
    (h : matchPipAt s = some g) :
    (∀ c ∈ g.1, notQuote c = true) ∧ ∀ c ∈ g.2, notQuote c = true := by
  unfold matchPipAt at h
  split at h
  · exact matchAfterParen_notQuote _ _ h
  · exact absurd h (by simp)

theorem searchPip_notQuote :
    ∀ (l : List Char) (g : List Char × List Char), searchPip l = some g →
      (∀ c ∈ g.1, notQuote c = true) ∧ ∀ c ∈ g.2, notQuote c = true := by
  intro l
  induction l with
  | nil => intro g h; simp [searchPip] at h
  | cons c cs ih =>
    intro g h
    simp only [searchPip] at h
    cases hm : matchPipAt (c :: cs) with
    | some g' =>
      rw [hm] at h
      simp only [Option.some.injEq] at h
      exact h ▸ matchPipAt_notQuote _ _ hm
    | none => rw [hm] at h; exact ih g h

/-- Versions returned by `extract_versions` contain no quote character
(they come from the regex groups `[^'\"]+`). -/
theorem extract_versions_notQuote (s r : String) (ev mv : String)
    (h : extract_versions s r = some (ev, mv)) :
    (∀ c ∈ ev.data, notQuote c = true) ∧ ∀ c ∈ mv.data, notQuote c = true := by
  unfold extract_versions at h
  split at h
  · exact Option.noConfusion h
  rename_i osc g1 g2 hs
  obtain ⟨hq1, hq2⟩ := searchPip_notQuote _ _ hs
  simp only [] at h
  split at h
  · simp only [Option.some.injEq, Prod.mk.injEq] at h
    obtain ⟨h1, h2⟩ := h
    constructor
    · intro c hc
      rw [← h1] at hc
      exact hq1 c (List.mem_of_mem_drop hc)
    · intro c hc
      rw [← h2] at hc
      exact hq2 c (List.mem_of_mem_drop hc)
  · exact Option.noConfusion h

set_option maxRecDepth 8000 in
/-- The canonical header passes the content-based recognition. -/
theorem looks_like_build (r v : String) : looks_like_header (build_header r v) = true := by
  have hocc : ∀ pat ∈ HEADER_KEY_PATTERNS, containsSub pat.data headerPre.data = true := by
    decide
  have hpre : ∀ pat : List Char, ∀ a b : List Char, containsSub pat a = true →
      containsSub pat (a ++ b) = true := by
    intro pat a
    induction a with
    | nil =>
      intro b h
      have : pat = [] := by simpa [containsSub, List.isEmpty_iff] using h
      subst this
      cases b with
      | nil => decide
      | cons x xs => simp [containsSub, List.isPrefixOf]
    | cons c cs ih =>
      intro b h
      simp only [containsSub, Bool.or_eq_true] at h ⊢
      rcases h with h | h
      · exact Or.inl (isPrefixOf_of_append b h)
      · exact Or.inr (ih b h)
  simp only [looks_like_header, List.all_eq_true]
  intro pat hpat
  rw [build_header_data]
  exact hpre _ _ _ (hocc pat hpat)

/-- Resolution is stable: resolving an already-resolved version again with
the same hook version gives the same answer. -/
theorem resolve_version_idem (x hv : Option String) :
    resolve_version (some (resolve_version x hv)) hv = resolve_version x hv := by
  unfold resolve_version
  cases x with
  | none =>
    simp only [truthyStr]
    cases hv with
    | none => simp [truthyStr]
    | some s =>
      by_cases hs : s = ""
      · simp [hs, truthyStr]
      · simp [hs, truthyStr]
  | some t =>
    by_cases ht : t = ""
    · subst ht
      simp only [truthyStr]
      cases hv with
      | none => simp [truthyStr]
      | some s =>
        by_cases hs : s = ""
        · simp [hs, truthyStr]
        · simp [hs, truthyStr]
    · simp [truthyStr, ht]

/-- The characters of a resolved version all come from the existing version,
the hook version, or the empty string. -/
theorem resolve_version_notQuote (x hv : Option String)
    (hx : ∀ s, x = some s → ∀ c ∈ s.data, notQuote c = true)
    (hhv : ∀ s, hv = some s → ∀ c ∈ s.data, notQuote c = true) :
    ∀ c ∈ (resolve_version x hv).data, notQuote c = true := by
  unfold resolve_version
  split
  · next h =>
    cases x with
    | none => simp [truthyStr] at h
    | some s => exact hx s rfl
  · split
    · next h =>
      cases hv with
      | none => simp [truthyStr] at h
      | some s => exact hhv s rfl
    · intro c hc
      have he : ("" : String).data = [] := rfl
      rw [he] at hc
      simp at hc

theorem findHeader_eq_none (l : List Cell) :
    findHeader l = none ↔ ∀ c ∈ l, ¬ isHeaderCell c = true := by
  induction l with
  | nil => simp [findHeader]
  | cons a t ih =>
    simp only [findHeader]
    by_cases ha : isHeaderCell a
    · simp [ha]
    · simp [ha, ih]

theorem findHeader_spec :
    ∀ (l : List Cell) (i : Nat) (c : Cell), findHeader l = some (i, c) →
      l.get? i = some c ∧ isHeaderCell c = true := by
  intro l
  induction l with
  | nil => intro i c h; simp [findHeader] at h
  | cons a t ih =>
    intro i c h
    simp only [findHeader] at h
    by_cases ha : isHeaderCell a
    · rw [if_pos ha] at h
      simp only [Option.some.injEq, Prod.mk.injEq] at h
      obtain ⟨h1, h2⟩ := h
      subst h1 h2
      exact ⟨rfl, ha⟩
    · rw [if_neg ha] at h
      cases ht : findHeader t with
      | none => rw [ht] at h; simp at h
      | some p =>
        rw [ht] at h
        obtain ⟨hi, hc2⟩ : p.1 + 1 = i ∧ p.2 = c := by simpa using h
        obtain ⟨hp, hcH⟩ := ih p.1 p.2 (by rw [ht])
        subst hi
        subst hc2
        exact ⟨by simpa using hp, hcH⟩

end ColabHeader

/-! ### C2 -/

/-- **C2** (amended).  Round-trip of the header codec: for any pair
`(package_name, version)` where neither string contains a quote character
and not both are empty, `extract_versions` applied to
`build_header package_name version` with the same `package_name` returns
`(version, version)`.  (For `("", "")` the regex cannot match the empty
second call argument; a quote character in either string breaks the
quoting of the generated call — see the counterexample.) -/
theorem extract_of_build_header_roundtrip (repo v : String)
    (hr : ∀ c ∈ repo.data, ColabHeader.notQuote c = true)
    (hv : ∀ c ∈ v.data, ColabHeader.notQuote c = true)
    (hne : repo.data ++ v.data ≠ []) :
    ColabHeader.extract_versions (ColabHeader.build_header repo v) repo = some (v, v) :=
  ColabHeader.extract_versions_build repo v hr hv hne

set_option maxRecDepth 8000 in
/-- Witness for C2: the round-trip at `("PySDM", "==2.2")`. -/
theorem extract_of_build_header_roundtrip_witness :
    ColabHeader.extract_versions (ColabHeader.build_header "PySDM" "==2.2") "PySDM" =
      some ("==2.2", "==2.2") :=
  extract_of_build_header_roundtrip "PySDM" "==2.2" (by decide) (by decide) (by decide)

set_option maxRecDepth 8000 in
/-- Counterexample for C2 as stated ("for any pair"): with the empty
package name and empty version, the generated call
`pip_install_on_colab('-examples', '')` has an empty second argument,
which `[^'\"]+` cannot match, so extraction fails. -/
theorem extract_of_build_header_roundtrip_counterexample :
    ColabHeader.extract_versions (ColabHeader.build_header "" "") "" ≠ some ("", "") := by
  decide

/-! ### C3 -/

/-- **C3** (confirmed).  Version precedence of `resolve_version`:
`resolve_version "1.2" "9.9" = "1.2"`, `resolve_version None "9.9" = "9.9"`,
`resolve_version None None = ""`; in general a non-empty version embedded in
an existing header takes precedence over the hook parameter, which takes
precedence over the empty string. -/
theorem resolve_version_precedence :
    ColabHeader.resolve_version (some "1.2") (some "9.9") = "1.2" ∧
    ColabHeader.resolve_version none (some "9.9") = "9.9" ∧
    ColabHeader.resolve_version none none = "" ∧
    (∀ (e : String) (hv : Option String), e ≠ "" →
      ColabHeader.resolve_version (some e) hv = e) ∧
    (∀ h : String, h ≠ "" → ColabHeader.resolve_version none (some h) = h) := by
  refine ⟨by decide, by decide, by decide, ?_, ?_⟩
  · intro e hv he
    simp [ColabHeader.resolve_version, truthyStr, he]
  · intro h hh
    simp [ColabHeader.resolve_version, truthyStr, hh]

/-- Witness for C3: the general precedence clauses at concrete versions. -/
theorem resolve_version_precedence_witness :
    ColabHeader.resolve_version (some "7.1") (some "9.9") = "7.1" ∧
    ColabHeader.resolve_version none (some "8") = "8" :=
  ⟨resolve_version_precedence.2.2.2.1 "7.1" (some "9.9") (by decide),
   resolve_version_precedence.2.2.2.2 "8" (by decide)⟩

/-! ### C4 -/

/-- **C4** (confirmed).  For every notebook with at least 3 cells whose
recognized header cell (the first one found by the scan, at any index)
has two embedded package versions that differ, `check_colab_header` raises
the version-mismatch error regardless of the fix flag, and the notebook on
disk is unchanged. -/
theorem version_mismatch_always_raises (nb : Notebook) (repo : String) (fix : Bool)
    (hv : Option String) (i : Nat) (c : Cell) (ev mv : String)
    (hlen : ¬ nb.cells.length < 3)
    (hfind : ColabHeader.findHeader nb.cells = some (i, c))
    (hex : ColabHeader.extract_versions c.source repo = some (ev, mv))
    (hne : ev ≠ mv) :
    ColabHeader.check_colab_header nb repo fix hv =
      (Except.error (ColabHeader.HeaderError.versionMismatch ev mv), nb) := by
  unfold ColabHeader.check_colab_header
  rw [if_neg hlen, hfind]
  simp only []
  rw [hex]
  simp [hne]

set_option maxRecDepth 8000 in
/-- Witness for C4: a mismatched `"1.0"` vs `"2.0"` header at index 3,
with and without the fix flag. -/
theorem version_mismatch_always_raises_witness :
    ColabHeader.check_colab_header nbMismatch "x" true (some "9.9") =
      (Except.error (ColabHeader.HeaderError.versionMismatch "1.0" "2.0"), nbMismatch) ∧
    ColabHeader.check_colab_header nbMismatch "x" false none =
      (Except.error (ColabHeader.HeaderError.versionMismatch "1.0" "2.0"), nbMismatch) :=
  ⟨version_mismatch_always_raises nbMismatch "x" true (some "9.9") 3 mismatchHeaderCell
      "1.0" "2.0" (by decide) (by decide) (by decide) (by decide),
   version_mismatch_always_raises nbMismatch "x" false none 3 mismatchHeaderCell
      "1.0" "2.0" (by decide) (by decide) (by decide) (by decide)⟩

/-! ### C6 -/

/-- **C6** (confirmed).  For every notebook with at least 3 cells in which
no cell is recognized as a header, `check_colab_header` synthesizes a
header from the resolved version (existing = None, so the hook version or
the empty string), inserts it at index 2, writes the notebook and returns
modified = True — even when the fix flag is false. -/
theorem missing_header_synthesized (nb : Notebook) (repo : String) (fix : Bool)
    (hv : Option String)
    (hlen : ¬ nb.cells.length < 3)
    (hnone : ∀ c ∈ nb.cells, ¬ ColabHeader.isHeaderCell c = true) :
    ColabHeader.check_colab_header nb repo fix hv =
      (Except.ok true,
        ⟨nb.cells.insertIdx 2
          (ColabHeader.new_code_cell
            (ColabHeader.build_header repo (ColabHeader.resolve_version none hv)))⟩) := by
  unfold ColabHeader.check_colab_header
  rw [if_neg hlen, (ColabHeader.findHeader_eq_none nb.cells).mpr hnone]

set_option maxRecDepth 8000 in
/-- Witness for C6: synthesis on a header-less notebook with fix unset and
a hook version supplied. -/
theorem missing_header_synthesized_witness :
    ColabHeader.check_colab_header nbNoHeader "x" false (some "9.9") =
      (Except.ok true,
        ⟨nbNoHeader.cells.insertIdx 2
          (ColabHeader.new_code_cell
            (ColabHeader.build_header "x"
              (ColabHeader.resolve_version none (some "9.9"))))⟩) :=
  missing_header_synthesized nbNoHeader "x" false (some "9.9") (by decide) (by decide)

/-! ### C5 -/

/-- **C5** (amended).  When the fix flag is false and a header cell is
recognized (and well-formed), `check_colab_header` never rewrites header
*content*: non-canonical content raises the incorrect-header error with no
write, and canonical content at index 2 is a no-op.  However, canonical
content at index ≠ 2 *is* relocated to index 2 and the notebook is written
even with fix = false (relocation, like synthesis of a missing header, is
not gated by the flag — see the counterexample). -/
theorem no_fix_write_policy (nb : Notebook) (repo : String) (hv : Option String)
    (i : Nat) (c : Cell) (ev mv : String)
    (hlen : ¬ nb.cells.length < 3)
    (hfind : ColabHeader.findHeader nb.cells = some (i, c))
    (hex : ColabHeader.extract_versions c.source repo = some (ev, mv))
    (hvm : ev = mv) :
    (c.source ≠ ColabHeader.build_header repo (ColabHeader.resolve_version (some mv) hv) →
      ColabHeader.check_colab_header nb repo false hv =
        (Except.error ColabHeader.HeaderError.incorrectHeader, nb)) ∧
    (c.source = ColabHeader.build_header repo (ColabHeader.resolve_version (some mv) hv) →
      i = 2 →
      ColabHeader.check_colab_header nb repo false hv = (Except.ok false, nb)) ∧
    (c.source = ColabHeader.build_header repo (ColabHeader.resolve_version (some mv) hv) →
      i ≠ 2 →
      ColabHeader.check_colab_header nb repo false hv =
        (Except.ok true, ⟨(nb.cells.eraseIdx i).insertIdx 2 c⟩)) := by
  refine ⟨?_, ?_, ?_⟩
  · intro hne
    unfold ColabHeader.check_colab_header
    rw [if_neg hlen, hfind]
    simp only []
    rw [hex]
    simp [hvm, hne]
  · intro hsrc h2
    unfold ColabHeader.check_colab_header
    rw [if_neg hlen, hfind]
    simp only []
    rw [hex]
    simp [hvm, hsrc, h2]
  · intro hsrc h2
    unfold ColabHeader.check_colab_header
    rw [if_neg hlen, hfind]
    simp only []
    rw [hex]
    simp [hvm, hsrc, h2]

set_option maxRecDepth 8000 in
/-- Counterexample for C5 as stated: with fix = false, a present header
with canonical content at index 3 (≠ 2) is relocated and the notebook is
rewritten — `check_colab_header` returns modified = True and the on-disk
notebook differs. -/
theorem no_fix_write_policy_counterexample :
    ColabHeader.check_colab_header nbCanonAt3 "x" false none =
      (Except.ok true,
        ⟨[mdCell "Intro", mdCell "Description", canonCell, codeCell "x = 1"]⟩) ∧
    (⟨[mdCell "Intro", mdCell "Description", canonCell, codeCell "x = 1"]⟩ : Notebook) ≠
      nbCanonAt3 := by
  constructor
  · decide
  · decide

set_option maxRecDepth 8000 in
/-- Witness for C5: canonical header already at index 2 with fix = false is
a genuine no-op (no error, no write). -/
theorem no_fix_write_policy_witness :
    ColabHeader.check_colab_header nbCanonAt2 "x" false none =
      (Except.ok false, nbCanonAt2) :=
  (no_fix_write_policy nbCanonAt2 "x" none 2 canonCell "" ""
      (by decide) (by decide) (by decide) rfl).2.1 (by decide) rfl

namespace ColabHeader

theorem unique_not_at (l : List Cell) (i : Nat) (c : Cell)
    (hcount : l.countP isHeaderCell ≤ 1)
    (hi : l.get? i = some c) (hc : isHeaderCell c = true) :
    ∀ j cj, l.get? j = some cj → j ≠ i → isHeaderCell cj = false := by
  intro j cj hj hne
  cases h : isHeaderCell cj with
  | false => rfl
  | true =>
    exact absurd (countP_le_one_unique isHeaderCell l j i cj c hcount hj hi h hc) hne

theorem cells_three (l : List Cell) (h : ¬ l.length < 3) :
    ∃ c0 c1 c2 t, l = c0 :: c1 :: c2 :: t := by
  rcases l with _ | ⟨c0, _ | ⟨c1, _ | ⟨c2, t⟩⟩⟩
  · simp at h
  · simp at h
  · simp at h
  · exact ⟨c0, c1, c2, t, rfl⟩

theorem cells_two (l : List Cell) (h : 2 ≤ l.length) :
    ∃ c0 c1 t, l = c0 :: c1 :: t := by
  rcases l with _ | ⟨c0, _ | ⟨c1, t⟩⟩
  · simp at h
  · simp at h
  · exact ⟨c0, c1, t, rfl⟩

/-- What a successful fixing run of `check_colab_header` guarantees about
the resulting on-disk notebook, when at most one cell of the input is
recognized as a header: the first two cells are not header candidates and
the cell at index 2 is a recognized header whose source is the canonical
`build_header` text for a stable resolved version. -/
theorem check_fix_post (nb : Notebook) (r : String) (hv : Option String)
    (m : Bool) (nb₁ : Notebook)
    (hhv : ∀ s, hv = some s → ∀ c ∈ s.data, notQuote c = true)
    (hcount : nb.cells.countP isHeaderCell ≤ 1)
    (h1 : check_colab_header nb r true hv = (Except.ok m, nb₁)) :
    ∃ (a b : Cell) (t : List Cell) (canon : Cell) (fv : String),
      nb₁.cells = a :: b :: canon :: t ∧
      isHeaderCell a = false ∧ isHeaderCell b = false ∧
      isHeaderCell canon = true ∧
      canon.source = build_header r fv ∧
      (∀ c ∈ fv.data, notQuote c = true) ∧
      resolve_version (some fv) hv = fv := by
  unfold check_colab_header at h1
  split at h1
  · exact absurd (congrArg Prod.fst h1) (by simp)
  rename_i hlen
  split at h1
  case _ hfind =>
    -- header absent: a fresh canonical cell is inserted at index 2
    injection h1 with h1a h1b
    obtain ⟨c0, c1, c2, t, hc⟩ := cells_three nb.cells hlen
    have hnone := (findHeader_eq_none nb.cells).mp hfind
    refine ⟨c0, c1, c2 :: t,
      new_code_cell (build_header r (resolve_version none hv)),
      resolve_version none hv, ?_, ?_, ?_, ?_, rfl, ?_, ?_⟩
    · rw [← h1b, hc]; rfl
    · simpa using hnone c0 (by rw [hc]; simp)
    · simpa using hnone c1 (by rw [hc]; simp)
    · simp [isHeaderCell, new_code_cell, looks_like_build]
    · exact resolve_version_notQuote none hv (by intro s hs; exact absurd hs (by simp)) hhv
    · exact resolve_version_idem none hv
  case _ osc i c hfind =>
    obtain ⟨hget, hhead⟩ := findHeader_spec nb.cells i c hfind
    have hnotat := unique_not_at nb.cells i c hcount hget hhead
    split at h1
    · exact absurd (congrArg Prod.fst h1) (by simp)
    rename_i oex ev mv hex
    split at h1
    case isFalse => exact absurd (congrArg Prod.fst h1) (by simp)
    rename_i hvm
    have hmvq : ∀ cc ∈ mv.data, notQuote cc = true :=
      (extract_versions_notQuote c.source r ev mv hex).2
    have hfvq : ∀ cc ∈ (resolve_version (some mv) hv).data, notQuote cc = true := by
      refine resolve_version_notQuote (some mv) hv ?_ hhv
      intro s hs
      injection hs with hs
      rw [← hs]
      exact hmvq
    have hfvres : resolve_version (some (resolve_version (some mv) hv)) hv =
        resolve_version (some mv) hv := resolve_version_idem (some mv) hv
    simp only [] at h1
    by_cases hsrc : c.source = build_header r (resolve_version (some mv) hv)
    · rw [if_pos hsrc] at h1
      by_cases hi2 : i = 2
      · rw [if_pos hi2] at h1
        injection h1 with h1a h1b
        subst hi2
        obtain ⟨c0, c1, c2, t, hc⟩ := cells_three nb.cells hlen
        have hc2 : c2 = c := by
          have := hget
          rw [hc] at this
          simpa using this
        refine ⟨c0, c1, t, c, resolve_version (some mv) hv, ?_, ?_, ?_, hhead, hsrc, hfvq, hfvres⟩
        · rw [← h1b, hc, hc2]
        · exact hnotat 0 c0 (by rw [hc]; rfl) (by omega)
        · exact hnotat 1 c1 (by rw [hc]; rfl) (by omega)
      · rw [if_neg hi2] at h1
        injection h1 with h1a h1b
        have hilt : i < nb.cells.length := by
          have := hget
          rw [List.get?_eq_some] at this
          exact this.1
        have hlen2 : 2 ≤ (nb.cells.eraseIdx i).length := by
          rw [List.length_eraseIdx, if_pos hilt]
          omega
        obtain ⟨y0, y1, t, hy⟩ := cells_two _ hlen2
        have herased := eraseIdx_all_not isHeaderCell nb.cells i
          (fun j cj hj hne => hnotat j cj hj hne)
        refine ⟨y0, y1, t, c, resolve_version (some mv) hv, ?_, ?_, ?_, hhead, hsrc, hfvq, hfvres⟩
        · rw [← h1b]
          show ((nb.cells.eraseIdx i).insertIdx 2 c) = _
          rw [hy]
          rfl
        · exact herased y0 (by rw [hy]; simp)
        · exact herased y1 (by rw [hy]; simp)
    · rw [if_neg hsrc] at h1
      simp only [eq_self_iff_true, if_true] at h1
      have hctype : (c.cell_type == "code") = true := by
        have hx := hhead
        unfold isHeaderCell at hx
        simp only [Bool.and_eq_true] at hx
        exact hx.1
      have hfixedhead :
          isHeaderCell { c with source := build_header r (resolve_version (some mv) hv) } = true := by
        unfold isHeaderCell
        simp only []
        rw [hctype, looks_like_build]
        rfl
      by_cases hi2 : i = 2
      · rw [if_pos hi2] at h1
        injection h1 with h1a h1b
        subst hi2
        obtain ⟨c0, c1, c2, t, hc⟩ := cells_three nb.cells hlen
        have hc2 : c2 = c := by
          have := hget
          rw [hc] at this
          simpa using this
        refine ⟨c0, c1, t, _, resolve_version (some mv) hv, ?_, ?_, ?_, hfixedhead, rfl, hfvq, hfvres⟩
        · rw [← h1b, hc, hc2]
          rfl
        · exact hnotat 0 c0 (by rw [hc]; rfl) (by omega)
        · exact hnotat 1 c1 (by rw [hc]; rfl) (by omega)
      · rw [if_neg hi2] at h1
        injection h1 with h1a h1b
        rw [eraseIdx_set_eq] at h1b
        have hilt : i < nb.cells.length := by
          have := hget
          rw [List.get?_eq_some] at this
          exact this.1
        have hlen2 : 2 ≤ (nb.cells.eraseIdx i).length := by
          rw [List.length_eraseIdx, if_pos hilt]
          omega
        obtain ⟨y0, y1, t, hy⟩ := cells_two _ hlen2
        have herased := eraseIdx_all_not isHeaderCell nb.cells i
          (fun j cj hj hne => hnotat j cj hj hne)
        refine ⟨y0, y1, t, _, resolve_version (some mv) hv, ?_, ?_, ?_, hfixedhead, rfl, hfvq, hfvres⟩
        · rw [← h1b]
          show ((nb.cells.eraseIdx i).insertIdx 2 _) = _
          rw [hy]
          rfl
        · exact herased y0 (by rw [hy]; simp)
        · exact herased y1 (by rw [hy]; simp)

end ColabHeader

namespace ColabHeader

/-- Running `check_colab_header` with fix on a notebook whose cell at index
2 is a canonical header (for a stable resolved version) and whose first two
cells are not header candidates is a no-op. -/
theorem check_on_canonical (a b canon : Cell) (t : List Cell) (r : String)
    (hv : Option String) (fv : String)
    (ha : isHeaderCell a = false) (hb : isHeaderCell b = false)
    (hcanon : isHeaderCell canon = true)
    (hsrc : canon.source = build_header r fv)
    (hfq : ∀ c ∈ fv.data, notQuote c = true)
    (hres : resolve_version (some fv) hv = fv)
    (hr : ∀ c ∈ r.data, notQuote c = true) (hrne : r ≠ "") :
    check_colab_header ⟨a :: b :: canon :: t⟩ r true hv =
      (Except.ok false, ⟨a :: b :: canon :: t⟩) := by
  have hfind : findHeader (a :: b :: canon :: t) = some (2, canon) := by
    unfold findHeader
    rw [ha]
    unfold findHeader
    rw [hb]
    unfold findHeader
    rw [hcanon]
    simp
  have hrd : r.data ≠ [] := by
    intro hd
    exact hrne (String.ext (show r.data = ("" : String).data by rw [hd]))
  have hex : extract_versions canon.source r = some (fv, fv) := by
    rw [hsrc]
    refine extract_versions_build r fv hr hfq ?_
    intro hcontra
    exact hrd (List.append_eq_nil.mp hcontra).1
  unfold check_colab_header
  rw [if_neg (by simp)]
  rw [show (Notebook.mk (a :: b :: canon :: t)).cells = a :: b :: canon :: t from rfl,
    hfind]
  simp only []
  rw [hex]
  simp [hres, hsrc]

end ColabHeader

/-! ### C1 -/

/-- **C1** (amended).  Idempotence of header repair holds for notebooks in
which at most one cell is recognized as a header candidate, provided the
repository name is non-empty and neither it nor the hook version contains a
quote character: if a fixing run succeeds with result `(modified, nb₁)`,
a second fixing run on `nb₁` succeeds, reports unchanged
(modified = False) and leaves the notebook byte-identical.  (With two
recognized header cells the relocation step moves a different cell each
run, so the repair oscillates — see the counterexample.) -/
theorem colab_header_fix_idempotent (nb : Notebook) (r : String) (hv : Option String)
    (m : Bool) (nb₁ : Notebook)
    (hr : ∀ c ∈ r.data, ColabHeader.notQuote c = true) (hrne : r ≠ "")
    (hhv : ∀ s, hv = some s → ∀ c ∈ s.data, ColabHeader.notQuote c = true)
    (hcount : nb.cells.countP ColabHeader.isHeaderCell ≤ 1)
    (h1 : ColabHeader.check_colab_header nb r true hv = (Except.ok m, nb₁)) :
    ColabHeader.check_colab_header nb₁ r true hv = (Except.ok false, nb₁) := by
  obtain ⟨a, b, t, canon, fv, hcells, ha, hb, hcanon, hsrc, hfq, hres⟩ :=
    ColabHeader.check_fix_post nb r hv m nb₁ hhv hcount h1
  obtain ⟨cs⟩ := nb₁
  have hcs : cs = a :: b :: canon :: t := hcells
  subst hcs
  exact ColabHeader.check_on_canonical a b canon t r hv fv ha hb hcanon hsrc hfq hres hr hrne

set_option maxRecDepth 8000 in
/-- Witness for C1: a first fixing run on a header-less notebook inserts
the canonical header at index 2; the theorem then gives that the second
run is a no-op. -/
theorem colab_header_fix_idempotent_witness :
    ColabHeader.check_colab_header
      ⟨[mdCell "Intro", mdCell "Description", canonCell, codeCell "x = 1"]⟩ "x" true none =
      (Except.ok false,
        ⟨[mdCell "Intro", mdCell "Description", canonCell, codeCell "x = 1"]⟩) :=
  colab_header_fix_idempotent nbNoHeader "x" none true
    ⟨[mdCell "Intro", mdCell "Description", canonCell, codeCell "x = 1"]⟩
    (by decide) (by decide) (fun s hs => absurd hs (by simp)) (by decide) (by decide)

set_option maxRecDepth 8000 in
/-- Counterexample for C1 as stated ("for every notebook"): with two cells
recognized as headers (identical canonical source, different execution
counts), every fixing run relocates one of them and reports modified, and
the second run produces a notebook different from the first run's output. -/
theorem colab_header_fix_idempotent_counterexample :
    ColabHeader.check_colab_header nbTwoHeaders "x" true none =
      (Except.ok true,
        ⟨[mdCell "Description",
          ⟨"code", ColabHeader.build_header "x" "", some 2, []⟩,
          ⟨"code", ColabHeader.build_header "x" "", some 1, []⟩]⟩) ∧
    ColabHeader.check_colab_header
      ⟨[mdCell "Description",
        ⟨"code", ColabHeader.build_header "x" "", some 2, []⟩,
        ⟨"code", ColabHeader.build_header "x" "", some 1, []⟩]⟩ "x" true none =
      (Except.ok true,
        ⟨[mdCell "Description",
          ⟨"code", ColabHeader.build_header "x" "", some 1, []⟩,
          ⟨"code", ColabHeader.build_header "x" "", some 2, []⟩]⟩) ∧
    (⟨[mdCell "Description",
        ⟨"code", ColabHeader.build_header "x" "", some 2, []⟩,
        ⟨"code", ColabHeader.build_header "x" "", some 1, []⟩]⟩ : Notebook) ≠
      ⟨[mdCell "Description",
        ⟨"code", ColabHeader.build_header "x" "", some 1, []⟩,
        ⟨"code", ColabHeader.build_header "x" "", some 2, []⟩]⟩ := by
  refine ⟨by decide, by decide, by decide⟩

namespace NotebooksOutput

/-- Success of the hooks-variant output loop, characterized per output (the
cell index only feeds the error message). -/
theorem check_outputs_ok_iff (idx : Nat) (outs : List Output) :
    check_outputs idx outs = Except.ok () ↔
      ∀ o ∈ outs, ¬ o.output_type = some "error" ∧
        (o.output_type = some "stream" → o.name = some "stderr" →
          truthyStr o.text = true →
          pyStartswith "[Parallel(n_jobs=" (o.text.getD "") = true) := by
  induction outs with
  | nil => simp [check_outputs]
  | cons o rest ih =>
    unfold check_outputs
    by_cases h1 : o.output_type = some "error"
    · simp [h1]
    · rw [if_neg h1]
      by_cases h2 : o.output_type = some "stream"
      · rw [if_pos h2]
        by_cases h3 : o.name = some "stderr"
        · rw [if_pos h3]
          by_cases h4 : truthyStr o.text = true
          · by_cases h5 : pyStartswith "[Parallel(n_jobs=" (o.text.getD "") = true
            · rw [if_neg (by simp [h4, h5])]
              simp [h1, h2, h3, h4, h5, ih]
            · rw [if_pos (by simp [h4, h5])]
              simp only [List.forall_mem_cons]
              constructor
              · intro hcontra; exact absurd hcontra (by simp)
              · intro ⟨ho, _⟩
                exact absurd (ho.2 h2 h3 h4) h5
          · rw [if_neg (by simp [h4])]
            simp [h1, h2, h3, h4, ih]
        · rw [if_neg h3]
          simp [h1, h3, ih]
      · rw [if_neg h2]
        simp [h1, h2, ih]

/-- Success of the hooks-variant cell loop. -/
theorem check_cells_ok_iff (idx : Nat) (cells : List Cell) :
    check_cells idx cells = Except.ok () ↔
      ∀ c ∈ cells, c.cell_type = "code" → ∀ o ∈ c.outputs,
        ¬ o.output_type = some "error" ∧
        (o.output_type = some "stream" → o.name = some "stderr" →
          truthyStr o.text = true →
          pyStartswith "[Parallel(n_jobs=" (o.text.getD "") = true) := by
  induction cells generalizing idx with
  | nil => simp [check_cells]
  | cons c rest ih =>
    unfold check_cells
    by_cases hc : c.cell_type = "code"
    · rw [if_pos hc]
      cases ho : check_outputs idx c.outputs with
      | ok u =>
        cases u
        have hiff := (check_outputs_ok_iff idx c.outputs).mp ho
        show check_cells (idx + 1) rest = Except.ok () ↔ _
        rw [ih (idx + 1)]
        simp only [List.forall_mem_cons]
        exact ⟨fun hrest => ⟨fun _ => hiff, hrest⟩, fun hall => hall.2⟩
      | error e =>
        show (Except.error e : Except String Unit) = Except.ok () ↔ _
        constructor
        · intro hcontra
          exact absurd hcontra (by simp)
        · intro hall
          have := (check_outputs_ok_iff idx c.outputs).mpr (hall c (by simp) hc)
          rw [ho] at this
          exact absurd this (by simp)
    · rw [if_neg hc]
      rw [ih (idx + 1)]
      simp [hc]

end NotebooksOutput

namespace PreCommitHooks

/-- Success of the pre-commit-hooks-variant output loop: only the `name`
field is consulted; `output_type` is ignored entirely. -/
theorem devops_check_outputs_ok_iff (outs : List Output) :
    check_outputs outs = Except.ok () ↔
      ∀ o ∈ outs, o.name = some "stderr" →
        ∃ t, o.text = some t ∧ pyStartswith "[Parallel(n_jobs=" t = true := by
  induction outs with
  | nil => simp [check_outputs]
  | cons o rest ih =>
    unfold check_outputs
    by_cases h1 : o.name = some "stderr"
    · cases ht : o.text with
      | none => simp [h1, ht]
      | some t =>
        by_cases h2 : pyStartswith "[Parallel(n_jobs=" t = true
        · simp [h1, ht, h2, ih]
        · simp [h1, ht, h2]
    · simp [h1, ih]

/-- Success of the pre-commit-hooks-variant cell loop. -/
theorem devops_check_cells_ok_iff (cells : List Cell) :
    check_cells cells = Except.ok () ↔
      ∀ c ∈ cells, c.cell_type = "code" → ∀ o ∈ c.outputs,
        o.name = some "stderr" →
          ∃ t, o.text = some t ∧ pyStartswith "[Parallel(n_jobs=" t = true := by
  induction cells with
  | nil => simp [check_cells]
  | cons c rest ih =>
    unfold check_cells
    by_cases hc : c.cell_type = "code"
    · rw [if_pos hc]
      cases ho : check_outputs c.outputs with
      | ok u =>
        cases u
        have hiff := (devops_check_outputs_ok_iff c.outputs).mp ho
        show check_cells rest = Except.ok () ↔ _
        rw [ih]
        simp only [List.forall_mem_cons]
        exact ⟨fun hrest => ⟨fun _ => hiff, hrest⟩, fun hall => hall.2⟩
      | error e =>
        show (Except.error e : Except String Unit) = Except.ok () ↔ _
        constructor
        · intro hcontra
          exact absurd hcontra (by simp)
        · intro hall
          have := (devops_check_outputs_ok_iff c.outputs).mpr (hall c (by simp) hc)
          rw [ho] at this
          exact absurd this (by simp)
    · rw [if_neg hc]
      rw [ih]
      simp [hc]

end PreCommitHooks

/-! ### C8 -/

/-- **C8** (amended).  Output-cleanliness, per variant.  The hooks variant
fails iff some code cell has an `error` output or a `stream`/`stderr`
output with truthy (non-empty, present) text not starting with
`"[Parallel(n_jobs="`.  The devops_tests pre-commit-hooks variant never
looks at `output_type`: it passes iff every code-cell output whose `name`
is `stderr` has a `text` field starting with the allow-listed prefix — in
particular an `error` output (which has no `name` field) does not fail it,
and an empty stderr text does fail it. -/
theorem output_cleanliness_variants (nb : Notebook) :
    (NotebooksOutput.test_no_errors_or_warnings_in_output nb = Except.ok () ↔
      ∀ c ∈ nb.cells, c.cell_type = "code" → ∀ o ∈ c.outputs,
        ¬ o.output_type = some "error" ∧
        (o.output_type = some "stream" → o.name = some "stderr" →
          truthyStr o.text = true →
          pyStartswith "[Parallel(n_jobs=" (o.text.getD "") = true)) ∧
    (PreCommitHooks.test_no_errors_or_warnings_in_output nb = Except.ok () ↔
      ∀ c ∈ nb.cells, c.cell_type = "code" → ∀ o ∈ c.outputs,
        o.name = some "stderr" →
          ∃ t, o.text = some t ∧ pyStartswith "[Parallel(n_jobs=" t = true) :=
  ⟨NotebooksOutput.check_cells_ok_iff 0 nb.cells,
   PreCommitHooks.devops_check_cells_ok_iff nb.cells⟩


/-- Counterexample for C8 as stated ("an error output always fails, in
every variant"): the devops_tests pre-commit-hooks variant accepts a
notebook whose only output is an `error` output, while the hooks variant
rejects it. -/
theorem output_cleanliness_variants_counterexample :
    PreCommitHooks.test_no_errors_or_warnings_in_output nbErrorOutput = Except.ok () ∧
    NotebooksOutput.test_no_errors_or_warnings_in_output nbErrorOutput ≠ Except.ok () := by
  constructor
  · decide
  · decide

/-- Witness for C8: both directions of the characterizations at a concrete
clean notebook with an allow-listed stderr stream. -/
theorem output_cleanliness_variants_witness :
    NotebooksOutput.test_no_errors_or_warnings_in_output
      ⟨[⟨"code", "run()", some 1,
         [⟨some "stream", some "stderr", some "[Parallel(n_jobs=4)]: done"⟩]⟩]⟩ =
      Except.ok () :=
  (output_cleanliness_variants
    ⟨[⟨"code", "run()", some 1,
       [⟨some "stream", some "stderr", some "[Parallel(n_jobs=4)]: done"⟩]⟩]⟩).1.mpr
    (by decide)

/-! ### C10 -/

namespace NotebooksOutput

/-- An empty-text stderr stream output is invisible to the hooks-variant
output loop. -/
theorem check_outputs_skip_empty_stderr (idx : Nat) (outs1 outs2 : List Output) :
    check_outputs idx (outs1 ++ ⟨some "stream", some "stderr", some ""⟩ :: outs2) =
      check_outputs idx (outs1 ++ outs2) := by
  induction outs1 with
  | nil =>
    rw [List.nil_append, List.nil_append]
    unfold check_outputs
    simp only [truthyStr, bne_self_eq_false, Bool.false_and, if_neg]
    cases outs2 <;> rfl
  | cons o rest ih =>
    rw [List.cons_append, List.cons_append]
    unfold check_outputs
    rw [ih]

/-- An empty-text stderr stream output is invisible to the hooks-variant
cell loop. -/
theorem check_cells_skip_empty_stderr (idx : Nat) (pre post : List Cell) (c : Cell)
    (outs1 outs2 : List Output) :
    check_cells idx
        (pre ++ { c with outputs := outs1 ++ ⟨some "stream", some "stderr", some ""⟩ :: outs2 } :: post) =
      check_cells idx (pre ++ { c with outputs := outs1 ++ outs2 } :: post) := by
  induction pre generalizing idx with
  | nil =>
    rw [List.nil_append, List.nil_append]
    unfold check_cells
    simp only []
    rw [check_outputs_skip_empty_stderr]
  | cons p rest ih =>
    rw [List.cons_append, List.cons_append]
    unfold check_cells
    rw [ih]

end NotebooksOutput

/-- **C10** (confirmed).  In the hooks variant of the output-cleanliness
check, a code-cell output with `output_type = stream`, `name = stderr` and
empty text never causes a failure: inserting such an output anywhere in
any cell of any notebook leaves the verdict (and the error message, if
any) unchanged, because the check only raises when the stderr text is
truthy and does not start with the allow-listed prefix. -/
theorem empty_stderr_never_fails (pre post : List Cell) (c : Cell)
    (outs1 outs2 : List Output) :
    NotebooksOutput.test_no_errors_or_warnings_in_output
        ⟨pre ++ { c with outputs := outs1 ++ ⟨some "stream", some "stderr", some ""⟩ :: outs2 } :: post⟩ =
      NotebooksOutput.test_no_errors_or_warnings_in_output
        ⟨pre ++ { c with outputs := outs1 ++ outs2 } :: post⟩ :=
  NotebooksOutput.check_cells_skip_empty_stderr 0 pre post c outs1 outs2

/-! ### C9 -/

theorem data_head_of_append (a b : String) (c : Char) (l : List Char)
    (ha : a.data = c :: l) : ∃ m, (a ++ b).data = c :: m :=
  ⟨l ++ b.data, by rw [String.data_append, ha, List.cons_append]⟩

theorem pyStrip_ne_empty_of_data_head (s : String) (c : Char) (l : List Char)
    (hd : s.data = c :: l) (hc : pySpace c = false) : (pyStrip s != "") = true := by
  rw [bne_iff_ne]
  intro he
  unfold pyStrip at he
  rw [hd, ColabHeader.dropWhile_cons_false hc] at he
  have hz : ((c :: l).reverse.dropWhile pySpace).reverse = [] := by
    have := congrArg String.data he
    simpa using this
  rw [List.reverse_eq_nil_iff] at hz
  have hall := List.dropWhile_eq_nil_iff.mp hz
  have hcmem : c ∈ (c :: l).reverse := by simp
  exact absurd (hall c hcmem) (by simp [hc])

theorem preview_badge_head (path repo : String) :
    ∃ m, (StructureHook._preview_badge_markdown path repo).data = '[' :: m := by
  unfold StructureHook._preview_badge_markdown
  obtain ⟨m1, hm1⟩ : ∃ m,
      ("[![preview notebook](https://img.shields.io/static/v1?label=render%20on&logo=github&color=87ce3e&message=GitHub)](https://github.com/open-atmos/" :
        String).data = '[' :: m := ⟨_, rfl⟩
  exact data_head_of_append _ _ _ _
    ((data_head_of_append _ _ _ _
      ((data_head_of_append _ _ _ _ hm1).choose_spec)).choose_spec)

theorem mybinder_badge_head (path repo : String) :
    ∃ m, (StructureHook._mybinder_badge_markdown path repo).data = '[' :: m := by
  unfold StructureHook._mybinder_badge_markdown
  obtain ⟨m1, hm1⟩ : ∃ m,
      ("[![launch on mybinder.org](https://mybinder.org/badge_logo.svg)](https://mybinder.org/v2/gh/open-atmos/" :
        String).data = '[' :: m := ⟨_, rfl⟩
  exact data_head_of_append _ _ _ _
    ((data_head_of_append _ _ _ _
      ((data_head_of_append _ _ _ _ hm1).choose_spec)).choose_spec)

theorem colab_badge_head (path repo : String) :
    ∃ m, (StructureHook._colab_badge_markdown path repo).data = '[' :: m := by
  unfold StructureHook._colab_badge_markdown
  obtain ⟨m1, hm1⟩ : ∃ m,
      ("[![launch on Colab](https://colab.research.google.com/assets/colab-badge.svg)](https://colab.research.google.com/github/open-atmos/" :
        String).data = '[' :: m := ⟨_, rfl⟩
  exact data_head_of_append _ _ _ _
    ((data_head_of_append _ _ _ _
      ((data_head_of_append _ _ _ _ hm1).choose_spec)).choose_spec)

namespace StructureHook

/-- Success of the strict badge validator, characterized. -/
theorem strict_first_cell_ok_iff (path repo : String) (nb : Notebook) :
    test_first_cell_contains_three_badges path repo nb = Except.ok () ↔
      ∃ c rest, nb.cells = c :: rest ∧ c.cell_type = "markdown" ∧
        pySplitNl c.source =
          [_preview_badge_markdown path repo,
           _mybinder_badge_markdown path repo,
           _colab_badge_markdown path repo] := by
  cases hc : nb.cells with
  | nil => simp [test_first_cell_contains_three_badges, hc]
  | cons first rest =>
    simp only [test_first_cell_contains_three_badges, hc]
    by_cases hmd : first.cell_type = "markdown"
    · rcases hsp : pySplitNl first.source with _ | ⟨l0, _ | ⟨l1, _ | ⟨l2, _ | ⟨l3, ls⟩⟩⟩⟩
      · simp [hmd, hsp]
      · simp [hmd, hsp]
      · simp [hmd, hsp]
      · by_cases h0 : l0 = _preview_badge_markdown path repo
        · by_cases h1 : l1 = _mybinder_badge_markdown path repo
          · by_cases h2 : l2 = _colab_badge_markdown path repo
            · simp [hmd, hsp, h0, h1, h2]
            · simp [hmd, hsp, h0, h1, h2]
          · simp [hmd, hsp, h0, h1]
        · simp [hmd, hsp, h0]
      · simp [hmd, hsp]
    · simp [hmd]

end StructureHook

namespace CheckBadges

/-- Success of the tolerant badge validator, characterized: every expected
badge must occur (stripped) among the stripped first-cell lines; nothing
else is checked — in particular the number of lines is not. -/
theorem tolerant_first_cell_ok_iff (path repo owner : String) (nb : Notebook) :
    test_first_cell_contains_three_badges path repo owner nb = Except.ok () ↔
      ∀ b ∈ expected_badges_for path repo owner,
        pyStrip b ∈ (first_cell_lines nb).map pyStrip := by
  unfold test_first_cell_contains_three_badges badges_match
  simp only []
  by_cases hm : (List.filter
      (fun exp => !((first_cell_lines nb).map pyStrip).contains (pyStrip exp))
      (expected_badges_for path repo owner)).isEmpty = true
  · rw [if_pos hm]
    simp only [List.isEmpty_iff, List.filter_eq_nil_iff] at hm
    constructor
    · intro _ b hb
      have := hm b hb
      simpa [List.elem_iff] using this
    · intro _
      rfl
  · rw [if_neg hm]
    simp only [List.isEmpty_iff, List.filter_eq_nil_iff] at hm
    constructor
    · intro hcontra
      exact absurd hcontra (by simp)
    · intro hall
      exfalso
      apply hm
      intro b hb
      simpa [List.elem_iff] using hall b hb

end CheckBadges

/-- **C9** (amended).  First-cell badge validation, per variant.  The
strict variant accepts iff the first cell exists, is markdown, and its
source splits on newlines into exactly the three expected badge lines in
order (so whenever it accepts, the non-blank line count is 3, and any
deviation — including a non-blank line count ≠ 3 — is rejected).  The
tolerant variant accepts iff every expected badge occurs among the
stripped non-blank lines, in any order; it has no line-count check at all,
so a first cell with extra non-badge lines passes it (see the
counterexample). -/
theorem badge_validation_variants (path repo owner : String) (nb : Notebook) :
    (StructureHook.test_first_cell_contains_three_badges path repo nb = Except.ok () ↔
      ∃ c rest, nb.cells = c :: rest ∧ c.cell_type = "markdown" ∧
        pySplitNl c.source =
          [StructureHook._preview_badge_markdown path repo,
           StructureHook._mybinder_badge_markdown path repo,
           StructureHook._colab_badge_markdown path repo]) ∧
    (CheckBadges.test_first_cell_contains_three_badges path repo owner nb = Except.ok () ↔
      ∀ b ∈ CheckBadges.expected_badges_for path repo owner,
        pyStrip b ∈ (CheckBadges.first_cell_lines nb).map pyStrip) ∧
    (StructureHook.test_first_cell_contains_three_badges path repo nb = Except.ok () →
      (CheckBadges.first_cell_lines nb).length = 3) := by
  refine ⟨StructureHook.strict_first_cell_ok_iff path repo nb,
    CheckBadges.tolerant_first_cell_ok_iff path repo owner nb, ?_⟩
  intro hok
  obtain ⟨c, rest, hc, hmd, hsp⟩ := (StructureHook.strict_first_cell_ok_iff path repo nb).mp hok
  have hne1 := pyStrip_ne_empty_of_data_head _ _ _
    (preview_badge_head path repo).choose_spec (by decide)
  have hne2 := pyStrip_ne_empty_of_data_head _ _ _
    (mybinder_badge_head path repo).choose_spec (by decide)
  have hne3 := pyStrip_ne_empty_of_data_head _ _ _
    (colab_badge_head path repo).choose_spec (by decide)
  simp [CheckBadges.first_cell_lines, hc, hmd, hsp, hne1, hne2, hne3]


set_option maxRecDepth 8000 in
/-- Counterexample for C9 as stated ("in every variant a first cell whose
non-blank line count differs from 3 is rejected"): the tolerant variant
accepts a first cell with 4 non-blank lines. -/
theorem badge_validation_variants_counterexample :
    CheckBadges.test_first_cell_contains_three_badges "nb.ipynb" "r" "o" nbFourLines =
      Except.ok () ∧
    (CheckBadges.first_cell_lines nbFourLines).length = 4 := by
  constructor
  · decide
  · decide


set_option maxRecDepth 8000 in
/-- Witness for C9: a strict-accepted first cell indeed has 3 non-blank
lines. -/
theorem badge_validation_variants_witness :
    (CheckBadges.first_cell_lines nbStrictBadges).length = 3 :=
  (badge_validation_variants "nb.ipynb" "r" "o" nbStrictBadges).2.2 (by decide)

/-! ### C7 -/

namespace StructureHook


theorem main_step_fst (r : String) (fix : Bool) (hv : Option String)
    (acc : Bool × Nat × Nat) (f : String × Notebook) :
    (main_step r fix hv acc f).1 = (acc.1 || file_fails r fix hv f) := by
  rcases h1 : (ColabHeader.check_colab_header f.2 r fix hv).1 with er | b
  · rcases h2 : file_tests f.1 r (ColabHeader.check_colab_header f.2 r fix hv).2 with es | u <;>
      simp [main_step, file_fails, h1, h2]
  · cases b
    · rcases h2 : file_tests f.1 r (ColabHeader.check_colab_header f.2 r fix hv).2 with es | u <;>
        simp [main_step, file_fails, h1, h2]
    · rcases h2 : file_tests f.1 r (ColabHeader.check_colab_header f.2 r fix hv).2 with es | u <;>
        simp [main_step, file_fails, h1, h2]

theorem main_step_ref (r : String) (fix : Bool) (hv : Option String)
    (acc : Bool × Nat × Nat) (f : String × Notebook) :
    (main_step r fix hv acc f).2.1 =
      acc.2.1 + (if file_reformatted r fix hv f = true then 1 else 0) := by
  rcases h1 : (ColabHeader.check_colab_header f.2 r fix hv).1 with er | b
  · rcases h2 : file_tests f.1 r (ColabHeader.check_colab_header f.2 r fix hv).2 with es | u <;>
      simp [main_step, file_reformatted, h1, h2]
  · cases b
    · rcases h2 : file_tests f.1 r (ColabHeader.check_colab_header f.2 r fix hv).2 with es | u <;>
        simp [main_step, file_reformatted, h1, h2]
    · rcases h2 : file_tests f.1 r (ColabHeader.check_colab_header f.2 r fix hv).2 with es | u <;>
        simp [main_step, file_reformatted, h1, h2]

theorem main_fold_spec (r : String) (fix : Bool) (hv : Option String)
    (files : List (String × Notebook)) :
    ∀ acc : Bool × Nat × Nat,
      (files.foldl (main_step r fix hv) acc).1 =
        (acc.1 || files.any (file_fails r fix hv)) ∧
      (files.foldl (main_step r fix hv) acc).2.1 =
        acc.2.1 + files.countP (file_reformatted r fix hv) := by
  induction files with
  | nil => intro acc; simp
  | cons f rest ih =>
    intro acc
    rw [List.foldl_cons]
    obtain ⟨ih1, ih2⟩ := ih (main_step r fix hv acc f)
    constructor
    · rw [List.any_cons, ih1, main_step_fst, Bool.or_assoc]
    · rw [ih2, main_step_ref, List.countP_cons]
      cases h : file_reformatted r fix hv f <;> simp [h] <;> omega

end StructureHook

/-- **C7** (amended).  Driver exit-status aggregation.  For the
`check_badges` driver and a single input file the claim holds: exit 0 iff
the file passes validation or a repair was attempted and did not raise;
exit 1 iff it fails and repair is disabled; exit 2 iff it fails, repair is
enabled and the repair raised.  For multi-file batches, however, the
per-file status *overwrites* the accumulator: a batch ending in a failing
file has that file's status regardless of earlier files, and a batch
ending in passing files keeps only the last failing file's status (see the
counterexample: exit 0 despite an earlier unrepaired failure).  The
structure-hook driver returns only 0 or 1 (never the distinct repair-error
code 2), and returns 0 iff every file passed both the header check and the
structural tests and none was reformatted. -/
theorem driver_exit_status (repo owner : String) (fixh : Bool)
    (f : CheckBadges.BatchFile) (files : List CheckBadges.BatchFile)
    (r2 : String) (fix2 : Bool) (hv2 : Option String)
    (files2 : List (String × Notebook)) :
    (CheckBadges.main_exit fixh repo owner [f] = 0 ↔
      (CheckBadges.file_checks repo owner f = Except.ok () ∨
        (fixh = true ∧ f.fix_raises = false))) ∧
    (CheckBadges.main_exit fixh repo owner [f] = 1 ↔
      (CheckBadges.file_checks repo owner f ≠ Except.ok () ∧ fixh = false)) ∧
    (CheckBadges.main_exit fixh repo owner [f] = 2 ↔
      (CheckBadges.file_checks repo owner f ≠ Except.ok () ∧ fixh = true ∧
        f.fix_raises = true)) ∧
    (CheckBadges.file_checks repo owner f ≠ Except.ok () →
      CheckBadges.main_exit fixh repo owner (files ++ [f]) =
        CheckBadges.main_exit fixh repo owner [f]) ∧
    (CheckBadges.file_checks repo owner f = Except.ok () →
      CheckBadges.main_exit fixh repo owner (files ++ [f]) =
        CheckBadges.main_exit fixh repo owner files) ∧
    (StructureHook.main_exit r2 fix2 hv2 files2 = 0 ∨
      StructureHook.main_exit r2 fix2 hv2 files2 = 1) ∧
    (StructureHook.main_exit r2 fix2 hv2 files2 = 0 ↔
      ∀ g ∈ files2, StructureHook.file_fails r2 fix2 hv2 g = false ∧
        StructureHook.file_reformatted r2 fix2 hv2 g = false) := by
  have hone : CheckBadges.main_exit fixh repo owner [f] =
      (match CheckBadges.file_checks repo owner f with
       | Except.ok _ => 0
       | Except.error _ => if fixh then (if f.fix_raises then 2 else 0) else 1) := rfl
  refine ⟨?_, ?_, ?_, ?_, ?_, ?_, ?_⟩
  · rcases hfc : CheckBadges.file_checks repo owner f with e | u
    · rw [hone, hfc]
      cases fixh <;> cases hra : f.fix_raises <;> simp [hfc, hra]
    · cases u
      rw [hone, hfc]
      simp [hfc]
  · rcases hfc : CheckBadges.file_checks repo owner f with e | u
    · rw [hone, hfc]
      cases fixh <;> cases hra : f.fix_raises <;> simp [hfc, hra]
    · cases u
      rw [hone, hfc]
      simp [hfc]
  · rcases hfc : CheckBadges.file_checks repo owner f with e | u
    · rw [hone, hfc]
      cases fixh <;> cases hra : f.fix_raises <;> simp [hfc, hra]
    · cases u
      rw [hone, hfc]
      simp [hfc]
  · intro hne
    rcases hfc : CheckBadges.file_checks repo owner f with e | u
    · unfold CheckBadges.main_exit
      rw [List.foldl_append]
      simp [hfc]
    · cases u; exact absurd hfc hne
  · intro hok
    unfold CheckBadges.main_exit
    rw [List.foldl_append]
    simp [hok]
  · unfold StructureHook.main_exit
    simp only []
    by_cases hcond :
        (0 < (files2.foldl (StructureHook.main_step r2 fix2 hv2) (false, 0, 0)).2.1 ||
          (files2.foldl (StructureHook.main_step r2 fix2 hv2) (false, 0, 0)).1) = true
    · rw [if_pos hcond]; exact Or.inr rfl
    · rw [if_neg hcond]; exact Or.inl rfl
  · unfold StructureHook.main_exit
    obtain ⟨h1, h2⟩ := StructureHook.main_fold_spec r2 fix2 hv2 files2 (false, 0, 0)
    simp only []
    rw [h1, h2]
    simp only [Bool.false_or, Nat.zero_add]
    constructor
    · intro h0
      by_cases hany : files2.any (StructureHook.file_fails r2 fix2 hv2) = true
      · rw [if_pos (by simp [hany])] at h0
        exact absurd h0 (by decide)
      · by_cases hcnt : 0 < files2.countP (StructureHook.file_reformatted r2 fix2 hv2)
        · rw [if_pos (by simp [hcnt])] at h0
          exact absurd h0 (by decide)
        · intro g hg
          have hz : files2.countP (StructureHook.file_reformatted r2 fix2 hv2) = 0 := by
            omega
          constructor
          · have hf : files2.any (StructureHook.file_fails r2 fix2 hv2) = false := by
              simpa using hany
            have h3 := List.any_eq_false.mp hf g hg
            simpa using h3
          · simpa using List.countP_eq_zero.mp hz g hg
    · intro hall
      have hany : files2.any (StructureHook.file_fails r2 fix2 hv2) = false := by
        rw [List.any_eq_false]
        intro g hg
        simp [(hall g hg).1]
      have hcnt : files2.countP (StructureHook.file_reformatted r2 fix2 hv2) = 0 := by
        rw [List.countP_eq_zero]
        intro g hg
        simp [(hall g hg).2]
      rw [hany, hcnt]
      simp

set_option maxRecDepth 2000 in
/-- Counterexample for C7 as stated: with `--fix-header`, a two-file batch
whose first file fails validation and whose repair raises (so its issue
remains unrepaired), followed by a failing file whose repair succeeds,
exits 0 — the claim's "0 only if no validator failed and no unrepaired
header issue remains" is violated by the per-file overwrite of `retval`. -/
theorem driver_exit_status_counterexample :
    CheckBadges.main_exit true "r" "o"
      [⟨"a.ipynb", ⟨[]⟩, true⟩, ⟨"b.ipynb", ⟨[]⟩, false⟩] = 0 ∧
    CheckBadges.file_checks "r" "o" ⟨"a.ipynb", ⟨[]⟩, true⟩ ≠ Except.ok () := by
  refine ⟨by decide, by decide⟩

/-- Witness for C7: a single failing file with `--fix-header` whose repair
raises exits with the distinct code 2. -/
theorem driver_exit_status_witness :
    CheckBadges.main_exit true "r" "o" [⟨"a.ipynb", ⟨[]⟩, true⟩] = 2 :=
  (driver_exit_status "r" "o" true ⟨"a.ipynb", ⟨[]⟩, true⟩ [] "x" false none []).2.2.1.mpr
    ⟨by decide, rfl, rfl⟩
